import Mathlib

/-!
Verification of the raycaster repository's shell (`src/main_sdl.c`) against its
natural-language specification.  The shell is embedded shallowly: the main
loop's observable actions become an event trace, `process_event` and the FPS
averaging code become pure Lean functions, and the parts of the core that the
repository does not ship under `src/` (game state, renderer, ray casters) are
modelled from the specification where a claim needs them.
-/

/-- The two numeric backends driven by the shell: fixed-point and floating-point. -/
inductive Backend
  | fixed
  | flt
deriving DecidableEq

/-- Observable actions of `main` in `src/main_sdl.c`, in the order the code performs
them.  A synchronous call is modelled by a start event immediately followed by an
end event. -/
inductive Ev
  | gameConstruct
  | constructCaster (b : Backend)
  | traceStart (b : Backend)
  | traceEnd (b : Backend)
  | drawFPSEv (b : Backend)
  | drawBufferEv (b : Backend)
  | present
  | pollEvent
  | gameMove
  | destructCaster (b : Backend)
deriving DecidableEq

/-- Identity of the framebuffer each `RendererTraceFrame` call writes:
`main` declares two distinct stack arrays `floatBuffer` and `fixedBuffer`
(lines 109 and 114), so the two trace calls target distinct storage. -/
def traceBuffer : Backend → Nat
  | .fixed => 0
  | .flt => 1

/-- Events before the main loop (lines 104-114): `GameConstruct`, then the
floating-point caster construction, then the fixed-point caster construction. -/
def setupEvents : List Ev :=
  [.gameConstruct, .constructCaster .flt, .constructCaster .fixed]

/-- The body of one iteration of the main loop (lines 142-185) on which both
`draw_buffer` texture locks succeed: trace float, trace fixed, draw FPS on
fixed then float, upload fixed then float buffer, present, poll at most one
event, update the game state.  (`frameEventsWith` below also covers the
iterations truncated by a lock failure.) -/
def frameEvents : List Ev :=
  [.traceStart .flt, .traceEnd .flt, .traceStart .fixed, .traceEnd .fixed,
   .drawFPSEv .fixed, .drawFPSEv .flt, .drawBufferEv .fixed, .drawBufferEv .flt,
   .present, .pollEvent, .gameMove]

/-- `n` consecutive iterations of the main loop. -/
def loopEvents : Nat → List Ev
  | 0 => []
  | n + 1 => frameEvents ++ loopEvents n

/-- Events after the loop (lines 194-195): destruct the floating-point caster,
then the fixed-point caster. -/
def teardownEvents : List Ev :=
  [.destructCaster .flt, .destructCaster .fixed]

/-- The trace of one run of `main` on which every `draw_buffer` texture lock
succeeds: if `SDL_Init` fails or the window cannot be created, none of the
modelled core calls happen; otherwise setup, `n` loop iterations, teardown.
(`mainTraceLocks` below refines this with the `exit(1)` path taken when an
`SDL_LockTexture` call fails mid-loop.) -/
def mainTrace (initOk windowOk : Bool) (n : Nat) : List Ev :=
  if initOk && windowOk then setupEvents ++ loopEvents n ++ teardownEvents else []

/-- The trace of a successful run with `n` loop iterations. -/
def mainTraceOk (n : Nat) : List Ev := mainTrace true true n

lemma loopEvents_length (n : Nat) : (loopEvents n).length = 11 * n := by
  induction n with
  | zero => rfl
  | succ n ih =>
    simp only [loopEvents, List.length_append, ih,
      show (frameEvents : List Ev).length = 11 from rfl]
    ring

lemma loopEvents_slice (n k : Nat) (h : k < n) :
    ((loopEvents n).drop (11 * k)).take 11 = frameEvents := by
  induction n generalizing k with
  | zero => omega
  | succ n ih =>
    cases k with
    | zero =>
      simp only [Nat.mul_zero, List.drop_zero, loopEvents]
      rw [List.take_append_of_le_length (by simp [frameEvents])]
      rfl
    | succ k =>
      have h11 : 11 * (k + 1) = 11 + 11 * k := by ring
      have hlen : (frameEvents : List Ev).length = 11 := rfl
      simp only [loopEvents, h11]
      rw [show (11 : Nat) + 11 * k = frameEvents.length + 11 * k from rfl,
        List.drop_append]
      exact ih k (by omega)

lemma mainTraceOk_slice (n k : Nat) (h : k < n) :
    ((mainTraceOk n).drop (3 + 11 * k)).take 11 = frameEvents := by
  have hset : (setupEvents : List Ev).length = 3 := rfl
  have hdrop : (mainTraceOk n).drop (3 + 11 * k)
      = (loopEvents n).drop (11 * k) ++ teardownEvents := by
    rw [show mainTraceOk n = setupEvents ++ (loopEvents n ++ teardownEvents) from
      by simp [mainTraceOk, mainTrace]]
    rw [show (3 : Nat) + 11 * k = setupEvents.length + 11 * k from rfl,
      List.drop_append]
    exact List.drop_append_of_le_length (by rw [loopEvents_length]; omega)
  rw [hdrop, List.take_append_of_le_length
    (by rw [List.length_drop, loopEvents_length]; omega)]
  exact loopEvents_slice n k h

/-- C1: in every iteration of the shell's main loop, the floating-point and
fixed-point `RendererTraceFrame` calls both complete before the frame is
presented; between the start of the first trace and the completion of the second
the only events are the two traces themselves (in particular no `GameMove`
occurs there); and the two traces write to distinct framebuffers. -/
theorem c1_trace_order (n k : Nat) (h : k < n) :
    ((mainTraceOk n).drop (3 + 11 * k)).take 11 = frameEvents ∧
    frameEvents.indexOf (.traceEnd .flt) < frameEvents.indexOf .present ∧
    frameEvents.indexOf (.traceEnd .fixed) < frameEvents.indexOf .present ∧
    frameEvents.take 4
      = [.traceStart .flt, .traceEnd .flt, .traceStart .fixed, .traceEnd .fixed] ∧
    (∀ e ∈ frameEvents.take 4, e ≠ .gameMove) ∧
    traceBuffer .fixed ≠ traceBuffer .flt :=
  ⟨mainTraceOk_slice n k h, by decide, by decide, by decide, by decide, by decide⟩

/-- Witness for C1 at a concrete run: one loop iteration, first frame. -/
theorem c1_trace_order_witness :
    ((mainTraceOk 1).drop (3 + 11 * 0)).take 11 = frameEvents ∧
    frameEvents.indexOf (.traceEnd .flt) < frameEvents.indexOf .present ∧
    frameEvents.indexOf (.traceEnd .fixed) < frameEvents.indexOf .present ∧
    frameEvents.take 4
      = [.traceStart .flt, .traceEnd .flt, .traceStart .fixed, .traceEnd .fixed] ∧
    (∀ e ∈ frameEvents.take 4, e ≠ .gameMove) ∧
    traceBuffer .fixed ≠ traceBuffer .flt :=
  c1_trace_order 1 0 (by decide)

/-- C4 fails as stated: the claimed per-frame order is poll, update, render,
present, but in `mainTraceOk 1` the first (and only) frame is traced and
presented before any input poll and before any `GameMove`. -/
theorem c4_counterexample :
    (mainTraceOk 1).indexOf Ev.present < (mainTraceOk 1).indexOf Ev.pollEvent ∧
    (mainTraceOk 1).indexOf (Ev.traceStart .flt)
      < (mainTraceOk 1).indexOf Ev.pollEvent ∧
    (mainTraceOk 1).indexOf (Ev.traceStart .flt)
      < (mainTraceOk 1).indexOf Ev.gameMove := by
  decide

/-- C4 amended: each iteration of the main loop first invokes the Renderer
(both traces, positions 0-3 of the iteration), then presents (position 8),
then polls input (position 9), then updates the Game State (position 10);
so the poll and update at the end of iteration k feed the render of
iteration k+1, and the first frame is rendered from the initial state. -/
theorem c4_frame_order (n k : Nat) (h : k < n) :
    ((mainTraceOk n).drop (3 + 11 * k)).take 11 = frameEvents ∧
    frameEvents.indexOf (Ev.traceStart .flt) = 0 ∧
    frameEvents.indexOf (Ev.traceEnd .fixed) = 3 ∧
    frameEvents.indexOf Ev.present = 8 ∧
    frameEvents.indexOf Ev.pollEvent = 9 ∧
    frameEvents.indexOf Ev.gameMove = 10 :=
  ⟨mainTraceOk_slice n k h, by decide, by decide, by decide, by decide, by decide⟩

/-- Witness for the amended C4 at a concrete run: one loop iteration. -/
theorem c4_frame_order_witness :
    ((mainTraceOk 1).drop (3 + 11 * 0)).take 11 = frameEvents ∧
    frameEvents.indexOf (Ev.traceStart .flt) = 0 ∧
    frameEvents.indexOf (Ev.traceEnd .fixed) = 3 ∧
    frameEvents.indexOf Ev.present = 8 ∧
    frameEvents.indexOf Ev.pollEvent = 9 ∧
    frameEvents.indexOf Ev.gameMove = 10 :=
  c4_frame_order 1 0 (by decide)

lemma loopEvents_count (n : Nat) (e : Ev) :
    (loopEvents n).count e = n * frameEvents.count e := by
  induction n with
  | zero => simp [loopEvents]
  | succ n ih =>
    simp only [loopEvents, List.count_append, ih]
    ring

/-- Outcome of the two `draw_buffer` calls of one loop iteration
(src/main_sdl.c lines 152-154): both `SDL_LockTexture` calls succeed, or the
lock fails in the first call (fixed buffer, line 152), or in the second
(float buffer, line 153). -/
inductive LockOutcome
  | ok
  | fixedLockFails
  | floatLockFails
deriving DecidableEq

/-- The events of one loop iteration given its `draw_buffer` lock outcome: on
a lock failure `draw_buffer` prints an error and calls `exit(1)`
(src/main_sdl.c lines 25-28), so the iteration — and the whole run — ends at
that point, before the present and before any further upload. -/
def frameEventsWith : LockOutcome → List Ev
  | .ok => frameEvents
  | .fixedLockFails =>
      [.traceStart .flt, .traceEnd .flt, .traceStart .fixed, .traceEnd .fixed,
       .drawFPSEv .fixed, .drawFPSEv .flt]
  | .floatLockFails =>
      [.traceStart .flt, .traceEnd .flt, .traceStart .fixed, .traceEnd .fixed,
       .drawFPSEv .fixed, .drawFPSEv .flt, .drawBufferEv .fixed]

/-- The loop-and-after events of a run whose successive iterations have the
given lock outcomes: iterations run while locks succeed; the first failing
lock truncates the run via `exit(1)` with no teardown; if all listed
iterations succeed the loop exits normally and the casters are destructed. -/
def runLocks : List LockOutcome → List Ev
  | [] => teardownEvents
  | LockOutcome.ok :: rest => frameEvents ++ runLocks rest
  | LockOutcome.fixedLockFails :: _ => frameEventsWith LockOutcome.fixedLockFails
  | LockOutcome.floatLockFails :: _ => frameEventsWith LockOutcome.floatLockFails

/-- The trace of a run of `main` (past SDL init and window creation) whose
loop iterations have the given `draw_buffer` lock outcomes. -/
def mainTraceLocks (outcomes : List LockOutcome) : List Ev :=
  setupEvents ++ runLocks outcomes

lemma frameEventsWith_count_construct (o : LockOutcome) (b : Backend) :
    (frameEventsWith o).count (Ev.constructCaster b) = 0 := by
  cases o <;> cases b <;> decide

lemma frameEventsWith_count_destruct (o : LockOutcome) (b : Backend) :
    (frameEventsWith o).count (Ev.destructCaster b) = 0 := by
  cases o <;> cases b <;> decide

lemma runLocks_count_construct (outcomes : List LockOutcome) (b : Backend) :
    (runLocks outcomes).count (Ev.constructCaster b) = 0 := by
  induction outcomes with
  | nil => cases b <;> decide
  | cons o rest ih =>
    cases o with
    | ok =>
      simp only [runLocks, List.count_append, ih]
      cases b <;> decide
    | fixedLockFails => exact frameEventsWith_count_construct _ b
    | floatLockFails => exact frameEventsWith_count_construct _ b

lemma runLocks_count_destruct_fail (outcomes : List LockOutcome) (b : Backend)
    (h : ∃ o ∈ outcomes, o ≠ LockOutcome.ok) :
    (runLocks outcomes).count (Ev.destructCaster b) = 0 := by
  induction outcomes with
  | nil =>
    obtain ⟨o, ho, _⟩ := h
    simp at ho
  | cons o rest ih =>
    cases o with
    | ok =>
      have h' : ∃ o ∈ rest, o ≠ LockOutcome.ok := by
        obtain ⟨o', ho', hne⟩ := h
        cases List.mem_cons.mp ho' with
        | inl heq => exact absurd heq hne
        | inr hmem => exact ⟨o', hmem, hne⟩
      simp only [runLocks, List.count_append, ih h']
      cases b <;> decide
    | fixedLockFails => exact frameEventsWith_count_destruct _ b
    | floatLockFails => exact frameEventsWith_count_destruct _ b

lemma runLocks_all_ok (outcomes : List LockOutcome)
    (h : ∀ o ∈ outcomes, o = LockOutcome.ok) :
    runLocks outcomes = loopEvents outcomes.length ++ teardownEvents := by
  induction outcomes with
  | nil => rfl
  | cons o rest ih =>
    have ho : o = LockOutcome.ok := h o (List.mem_cons_self o rest)
    subst ho
    have h' : ∀ o ∈ rest, o = LockOutcome.ok :=
      fun o hm => h o (List.mem_cons_of_mem _ hm)
    simp only [runLocks, List.length_cons, loopEvents, ih h', List.append_assoc]

lemma mainTraceLocks_replicate_ok (n : Nat) :
    mainTraceLocks (List.replicate n LockOutcome.ok) = mainTraceOk n := by
  unfold mainTraceLocks
  rw [runLocks_all_ok _ (fun o ho => List.eq_of_mem_replicate ho),
    List.length_replicate]
  simp [mainTraceOk, mainTrace]

/-- C9 fails as stated: on the run whose single iteration's fixed-buffer
`SDL_LockTexture` fails, `draw_buffer` calls `exit(1)` mid-loop
(src/main_sdl.c lines 25-28), so both casters have been constructed (once
each) but neither `Destruct` call is ever reached. -/
theorem c9_counterexample :
    (mainTraceLocks [LockOutcome.fixedLockFails]).count
      (Ev.constructCaster .fixed) = 1 ∧
    (mainTraceLocks [LockOutcome.fixedLockFails]).count
      (Ev.destructCaster .fixed) = 0 ∧
    (mainTraceLocks [LockOutcome.fixedLockFails]).count
      (Ev.constructCaster .flt) = 1 ∧
    (mainTraceLocks [LockOutcome.fixedLockFails]).count
      (Ev.destructCaster .flt) = 0 := by
  decide

/-- C9 amended: on every path on which the two casters are constructed, each
is constructed exactly once, before the frame loop; when every `draw_buffer`
texture lock succeeds — so the loop ends normally — each caster's `Destruct`
is then called exactly once, after the loop and nowhere else; but on a path
where some iteration's `SDL_LockTexture` fails, `draw_buffer` calls `exit(1)`
mid-loop and both `Destruct` calls are skipped. -/
theorem c9_lifecycle_locks (outcomes : List LockOutcome) (b : Backend) :
    (mainTraceLocks outcomes).count (Ev.constructCaster b) = 1 ∧
    ((∀ o ∈ outcomes, o = LockOutcome.ok) →
      mainTraceLocks outcomes
        = setupEvents ++ loopEvents outcomes.length ++ teardownEvents ∧
      (mainTraceLocks outcomes).count (Ev.destructCaster b) = 1 ∧
      setupEvents.count (Ev.constructCaster b) = 1 ∧
      (loopEvents outcomes.length).count (Ev.constructCaster b) = 0 ∧
      teardownEvents.count (Ev.constructCaster b) = 0 ∧
      setupEvents.count (Ev.destructCaster b) = 0 ∧
      (loopEvents outcomes.length).count (Ev.destructCaster b) = 0 ∧
      teardownEvents.count (Ev.destructCaster b) = 1) ∧
    ((∃ o ∈ outcomes, o ≠ LockOutcome.ok) →
      (mainTraceLocks outcomes).count (Ev.destructCaster b) = 0) := by
  have hsc : setupEvents.count (Ev.constructCaster b) = 1 := by cases b <;> decide
  have hsd : setupEvents.count (Ev.destructCaster b) = 0 := by cases b <;> decide
  have htc : teardownEvents.count (Ev.constructCaster b) = 0 := by
    cases b <;> decide
  have htd : teardownEvents.count (Ev.destructCaster b) = 1 := by
    cases b <;> decide
  have hlc : ∀ n, (loopEvents n).count (Ev.constructCaster b) = 0 := by
    intro n
    rw [loopEvents_count]
    cases b <;> simp [frameEvents]
  have hld : ∀ n, (loopEvents n).count (Ev.destructCaster b) = 0 := by
    intro n
    rw [loopEvents_count]
    cases b <;> simp [frameEvents]
  refine ⟨?_, ?_, ?_⟩
  · unfold mainTraceLocks
    rw [List.count_append, hsc, runLocks_count_construct]
  · intro hall
    have heq : runLocks outcomes = loopEvents outcomes.length ++ teardownEvents :=
      runLocks_all_ok outcomes hall
    refine ⟨?_, ?_, hsc, hlc _, htc, hsd, hld _, htd⟩
    · unfold mainTraceLocks
      rw [heq, List.append_assoc]
    · unfold mainTraceLocks
      rw [heq]
      simp only [List.count_append, hsd, hld outcomes.length, htd]
  · intro hfail
    unfold mainTraceLocks
    rw [List.count_append, hsd, runLocks_count_destruct_fail outcomes b hfail]

/-- Witness for the amended C9: a normally ending one-iteration run (construct
and destruct both counted once) and a run truncated by a float-buffer lock
failure (constructed once, never destructed). -/
theorem c9_lifecycle_locks_witness :
    (mainTraceLocks [LockOutcome.ok]).count (Ev.constructCaster .fixed) = 1 ∧
    (mainTraceLocks [LockOutcome.ok]).count (Ev.destructCaster .fixed) = 1 ∧
    (mainTraceLocks [LockOutcome.floatLockFails]).count
      (Ev.constructCaster .flt) = 1 ∧
    (mainTraceLocks [LockOutcome.floatLockFails]).count
      (Ev.destructCaster .flt) = 0 := by
  have hok := c9_lifecycle_locks [LockOutcome.ok] .fixed
  have hfail := c9_lifecycle_locks [LockOutcome.floatLockFails] .flt
  exact ⟨hok.1, (hok.2.1 (by decide)).2.1, hfail.1,
    hfail.2.2 ⟨LockOutcome.floatLockFails, by decide, by decide⟩⟩

/-- The SDL keys `process_event` distinguishes (src/main_sdl.c lines 60-78);
every other key falls into the default branch. -/
inductive SDLKey
  | escape
  | up
  | down
  | left
  | right
  | otherKey
deriving DecidableEq

/-- The SDL events `process_event` distinguishes: quit, key down / key up with
their key and repeat flag, and everything else. -/
inductive SDLEventT
  | quit
  | keydown (k : SDLKey) (rep : Nat)
  | keyup (k : SDLKey) (rep : Nat)
  | otherEvent
deriving DecidableEq

/-- The two direction variables of `main` (src/main_sdl.c lines 116-117). -/
structure InputState where
  moveDirection : Int
  rotateDirection : Int
deriving DecidableEq

/-- The initial direction state: both variables start at 0 (lines 116-117). -/
def initialInput : InputState := ⟨0, 0⟩

/-- Shallow embedding of `process_event` (src/main_sdl.c lines 50-81): returns
whether the application should quit together with the updated direction
variables.  Key events with a nonzero repeat flag are ignored; escape requests
quit on both press and release; UP/DOWN drive `moveDirection` to 1 resp. -1 on
press and 0 on release; LEFT/RIGHT drive `rotateDirection` to -1 resp. 1 on
press and 0 on release. -/
def process_event (ev : SDLEventT) (s : InputState) : Bool × InputState :=
  match ev with
  | .quit => (true, s)
  | .keydown k rep =>
    if rep = 0 then
      match k with
      | .escape => (true, s)
      | .up => (false, { s with moveDirection := 1 })
      | .down => (false, { s with moveDirection := -1 })
      | .left => (false, { s with rotateDirection := -1 })
      | .right => (false, { s with rotateDirection := 1 })
      | .otherKey => (false, s)
    else (false, s)
  | .keyup k rep =>
    if rep = 0 then
      match k with
      | .escape => (true, s)
      | .up => (false, { s with moveDirection := 0 })
      | .down => (false, { s with moveDirection := 0 })
      | .left => (false, { s with rotateDirection := 0 })
      | .right => (false, { s with rotateDirection := 0 })
      | .otherKey => (false, s)
    else (false, s)
  | .otherEvent => (false, s)

/-- The direction state after the main loop has processed a list of events, one
per iteration, starting from `s`. -/
def runEvents (es : List SDLEventT) (s : InputState) : InputState :=
  match es with
  | [] => s
  | e :: rest => runEvents rest (process_event e s).2

/-- The input domain of the `Move` contract: both direction variables are
in the set -1, 0, 1. -/
def dirOk (s : InputState) : Prop :=
  (s.moveDirection = -1 ∨ s.moveDirection = 0 ∨ s.moveDirection = 1) ∧
  (s.rotateDirection = -1 ∨ s.rotateDirection = 0 ∨ s.rotateDirection = 1)

lemma process_event_dirOk (ev : SDLEventT) (s : InputState) (h : dirOk s) :
    dirOk (process_event ev s).2 := by
  obtain ⟨hm, hr⟩ := h
  cases ev with
  | quit => exact ⟨hm, hr⟩
  | keydown k rep =>
    by_cases hrep : rep = 0 <;>
      cases k <;> simp [process_event, hrep, dirOk] <;> tauto
  | keyup k rep =>
    by_cases hrep : rep = 0 <;>
      cases k <;> simp [process_event, hrep, dirOk] <;> tauto
  | otherEvent => exact ⟨hm, hr⟩

/-- C7: starting from the initial direction state (both 0), after the main loop
has processed any sequence of SDL events via `process_event`, both
`moveDirection` and `rotateDirection` lie in -1, 0, 1 — so every `GameMove`
call the shell makes receives directions in the contract's input domain. -/
theorem c7_direction_invariant (es : List SDLEventT) :
    dirOk (runEvents es initialInput) := by
  have go : ∀ (l : List SDLEventT) (s : InputState), dirOk s → dirOk (runEvents l s) := by
    intro l
    induction l with
    | nil => intro s hs; exact hs
    | cons e rest ih =>
      intro s hs
      exact ih _ (process_event_dirOk e s hs)
  exact go es initialInput ⟨Or.inr (Or.inl rfl), Or.inr (Or.inl rfl)⟩

/-- One iteration's event handling in the main loop (src/main_sdl.c lines
158-162): `if (SDL_PollEvent(&event))` dequeues at most one event from the
queue and, when one was pending, assigns `isExiting` the result of
`process_event`; with an empty queue nothing changes. -/
def pollStep (queue : List SDLEventT) (s : InputState) (isExiting : Bool) :
    List SDLEventT × InputState × Bool :=
  match queue with
  | [] => (queue, s, isExiting)
  | e :: rest => (rest, (process_event e s).2, (process_event e s).1)

/-- C10: each main-loop iteration dequeues at most one pending event — the
remaining queue is exactly the tail of the pending queue, an empty queue leaves
the state untouched, and with events pending only the head event is processed
(the rest stay queued for later frames). -/
theorem c10_single_event (queue : List SDLEventT) (s : InputState) (ex : Bool) :
    (pollStep queue s ex).1 = queue.tail ∧
    pollStep [] s ex = ([], s, ex) ∧
    ∀ (e : SDLEventT) (rest : List SDLEventT),
      pollStep (e :: rest) s ex = (rest, (process_event e s).2, (process_event e s).1) := by
  refine ⟨?_, rfl, fun e rest => rfl⟩
  cases queue <;> rfl


/-- Shallow embedding of the time argument the shell passes to `GameMove`
(src/main_sdl.c line 184): `ticks / (SDL_GetPerformanceFrequency() >> 8)`,
on 64-bit unsigned values. -/
def elapsedTimeUnits (ticks freq : Nat) : Nat := ticks / (freq >>> 8)

/-- C5 fails as stated: with a performance-counter frequency of 511 ticks per
second and 100 elapsed ticks the shell passes `100 / (511 >> 8) = 100` to
`GameMove`, while the claimed formula gives `100 * 256 / 511 = 50`. -/
theorem c5_counterexample :
    elapsedTimeUnits 100 511 ≠ 100 * 256 / 511 := by decide

/-- C5 amended: the argument the shell passes to `GameMove` is
`ticks / (frequency >> 8)`, i.e. `ticks / (frequency / 256)` in integer
arithmetic; this coincides with the claimed `(ticks * 256) / frequency`
exactly when the frequency is a multiple of 256, and only approximates the
256-units-per-second normalization otherwise. -/
theorem c5_elapsed_units (ticks freq : Nat) (h : 256 ∣ freq) :
    elapsedTimeUnits ticks freq = ticks / (freq / 256) ∧
    (0 < freq → elapsedTimeUnits ticks freq = ticks * 256 / freq) := by
  constructor
  · unfold elapsedTimeUnits
    rw [Nat.shiftRight_eq_div_pow]
  · intro hpos
    obtain ⟨m, rfl⟩ := h
    have hm : 0 < m := by omega
    unfold elapsedTimeUnits
    rw [Nat.shiftRight_eq_div_pow]
    have h1 : 256 * m / 2 ^ 8 = m := by
      norm_num
    rw [h1, Nat.mul_comm ticks 256, Nat.mul_div_mul_left ticks m (by omega)]

/-- Witness for the amended C5: frequency 512 = 2 * 256, ticks 1000. -/
theorem c5_elapsed_units_witness :
    (256 ∣ 512) ∧ (0 < 512) ∧
    elapsedTimeUnits 1000 512 = 1000 / (512 / 256) ∧
    elapsedTimeUnits 1000 512 = 1000 * 256 / 512 := by
  have h := c5_elapsed_units 1000 512 (by decide)
  exact ⟨by decide, by decide, h.1, h.2 (by decide)⟩

/-- The pixel formats relevant to the shell's texture creation. -/
inductive SDLPixelFormat
  | ABGR8888
  | otherFormat
deriving DecidableEq

/-- An SDL streaming texture as created by the shell: pixel format plus
dimensions. -/
structure SDLTextureSpec where
  format : SDLPixelFormat
  width : Nat
  height : Nat
deriving DecidableEq

/-- Shallow embedding of the two `SDL_CreateTexture` calls (src/main_sdl.c
lines 134-139): both textures are `SDL_PIXELFORMAT_ABGR8888` streaming
textures of size SCREEN_WIDTH by SCREEN_HEIGHT. -/
def screenTexture (W H : Nat) : SDLTextureSpec := ⟨.ABGR8888, W, H⟩

/-- `sizeof(uint32_t)`: each packed pixel occupies 4 bytes. -/
def bytesPerPixel : Nat := 4

/-- Number of `uint32_t` elements in each framebuffer declared by `main`
(src/main_sdl.c lines 109 and 114): SCREEN_WIDTH * SCREEN_HEIGHT. -/
def framebufferLength (W H : Nat) : Nat := W * H

/-- Bytes copied by `draw_buffer`'s `memcpy` (src/main_sdl.c line 30):
`SCREEN_WIDTH * SCREEN_HEIGHT * sizeof(uint32_t)`. -/
def drawBufferCopyBytes (W H : Nat) : Nat := W * H * bytesPerPixel

/-- The byte image of one packed 32-bit pixel. -/
def pixelBytes (p : Nat) : List Nat :=
  [p % 256, p / 256 % 256, p / 256 ^ 2 % 256, p / 256 ^ 3 % 256]

/-- The byte image of a whole framebuffer, pixel by pixel, as `memcpy` reads
it. -/
def framebufferBytes (fb : List Nat) : List Nat :=
  match fb with
  | [] => []
  | p :: rest => pixelBytes p ++ framebufferBytes rest

lemma framebufferBytes_length (fb : List Nat) :
    (framebufferBytes fb).length = fb.length * 4 := by
  induction fb with
  | nil => rfl
  | cons p rest ih =>
    simp only [framebufferBytes, List.length_append, ih]
    simp [pixelBytes]
    ring

/-- C6: the framebuffer layout the shell uploads matches the texture exactly —
a framebuffer of SCREEN_WIDTH * SCREEN_HEIGHT packed 32-bit pixels (4 bytes
each) serializes to exactly `drawBufferCopyBytes W H = W * H * 4` bytes, the
amount `draw_buffer` memcpys, and the destination texture is an ABGR8888
texture of exactly the same width and height. -/
theorem c6_buffer_layout (W H : Nat) (fb : List Nat)
    (hfb : fb.length = framebufferLength W H) :
    (framebufferBytes fb).length = drawBufferCopyBytes W H ∧
    drawBufferCopyBytes W H = framebufferLength W H * bytesPerPixel ∧
    (screenTexture W H).format = SDLPixelFormat.ABGR8888 ∧
    (screenTexture W H).width = W ∧
    (screenTexture W H).height = H := by
  refine ⟨?_, rfl, rfl, rfl, rfl⟩
  rw [framebufferBytes_length, hfb]
  rfl

/-- Witness for C6: a 2-by-2 framebuffer. -/
theorem c6_buffer_layout_witness :
    ([10, 20, 30, 40] : List Nat).length = framebufferLength 2 2 ∧
    (framebufferBytes [10, 20, 30, 40]).length = drawBufferCopyBytes 2 2 ∧
    (screenTexture 2 2).format = SDLPixelFormat.ABGR8888 := by
  have h := c6_buffer_layout 2 2 [10, 20, 30, 40] (by decide)
  exact ⟨by decide, h.1, h.2.2.1⟩

/-- The FPS-averaging variables of `main` (src/main_sdl.c lines 126-128):
`fpsCounter` is a uint32, `fpsAccumulator` a uint64, `displayFPS` a uint32;
all start at 0. -/
structure FPSState where
  fpsCounter : Nat
  fpsAccumulator : Nat
  displayFPS : Nat
deriving DecidableEq

/-- The initial FPS state (all three variables 0, lines 126-128). -/
def initialFPSState : FPSState := ⟨0, 0, 0⟩

/-- Shallow embedding of the FPS update of one loop iteration (src/main_sdl.c
lines 169-177): accumulate the elapsed ticks, count the frame, and every 60
frames publish `tickFrequency * fpsCounter / fpsAccumulator` (a uint64
quotient cast to uint32) and reset the accumulator and counter. -/
def fpsUpdate (tickFrequency ticks : Nat) (s : FPSState) : FPSState :=
  let acc := (s.fpsAccumulator + ticks) % 2 ^ 64
  let cnt := (s.fpsCounter + 1) % 2 ^ 32
  if 60 ≤ cnt then
    { fpsCounter := 0, fpsAccumulator := 0,
      displayFPS := tickFrequency * cnt % 2 ^ 64 / acc % 2 ^ 32 }
  else
    { fpsCounter := cnt, fpsAccumulator := acc, displayFPS := s.displayFPS }

/-- The FPS state after the loop has run once per element of `ts` (the elapsed
ticks of each iteration), starting from `s`. -/
def runFPS (tickFrequency : Nat) (ts : List Nat) (s : FPSState) : FPSState :=
  match ts with
  | [] => s
  | t :: rest => runFPS tickFrequency rest (fpsUpdate tickFrequency t s)

lemma fpsUpdate_displayFPS_stable (f t : Nat) (s : FPSState)
    (hc : s.fpsCounter + 1 < 60) :
    (fpsUpdate f t s).displayFPS = s.displayFPS ∧
    (fpsUpdate f t s).fpsCounter = s.fpsCounter + 1 := by
  have hmod : (s.fpsCounter + 1) % 2 ^ 32 = s.fpsCounter + 1 :=
    Nat.mod_eq_of_lt (by omega)
  unfold fpsUpdate
  rw [if_neg (by omega)]
  exact ⟨rfl, hmod⟩

lemma runFPS_displayFPS_zero (f : Nat) (ts : List Nat) (s : FPSState)
    (hd : s.displayFPS = 0) (hc : s.fpsCounter + ts.length < 60) :
    (runFPS f ts s).displayFPS = 0 := by
  induction ts generalizing s with
  | nil => exact hd
  | cons t rest ih =>
    simp only [runFPS]
    have hstep := fpsUpdate_displayFPS_stable f t s
      (by simp at hc; omega)
    refine ih (fpsUpdate f t s) (by rw [hstep.1, hd]) ?_
    rw [hstep.2]
    simp at hc
    omega

/-- Modelled from the spec: the reserved corner region `RendererDrawFPS`
writes into (renderer.c is not under src/).  The spec fixes only that the
region is a small fixed-size corner of the buffer; it is modelled here as the
top-left glyph block of 16 by 8 pixels of a buffer of width `W`, addressed
row-major. -/
def inFPSRegion (W i : Nat) : Bool :=
  decide (i % W < 16 ∧ i / W < 8)

/-- Modelled from the spec: the glyph pattern of the FPS readout for a given
value at a given buffer index.  The spec fixes only that it is a total
function of the value (a zero value renders a zero/blank glyph); the concrete
pattern is irrelevant to the claims. -/
def fpsGlyph (value i : Nat) : Nat :=
  (value / 10 ^ (i % 16 / 4)) % 10

/-- Modelled from the spec: `RendererDrawFPS buffer value` (renderer.c is not
under src/) overlays the frame-rate readout in the reserved corner region,
overwriting only those pixels and leaving every other pixel of the buffer
unchanged; it is a total function, defined for every value including 0. -/
def RendererDrawFPS (W value : Nat) (b : Nat → Nat) : Nat → Nat :=
  fun i => if inFPSRegion W i then fpsGlyph value i else b i

/-- C8: `RendererDrawFPS` leaves every pixel outside the reserved corner
region exactly as `RendererTraceFrame` left it, is defined (never fails) at
value 0, where it writes the zero glyph inside the region; and the shell
does pass 0 for at least the first 60 frames: `displayFPS` starts at 0 and is
still 0 after any fewer than 60 FPS updates, while the `RendererDrawFPS` call
of frame k precedes the k-th update. -/
theorem c8_drawfps (W value i : Nat) (b : Nat → Nat) (f : Nat) (ts : List Nat) :
    (inFPSRegion W i = false → RendererDrawFPS W value b i = b i) ∧
    (inFPSRegion W i = true → RendererDrawFPS W 0 b i = fpsGlyph 0 i) ∧
    (ts.length < 60 → (runFPS f ts initialFPSState).displayFPS = 0) := by
  refine ⟨?_, ?_, ?_⟩
  · intro hout
    simp [RendererDrawFPS, hout]
  · intro hin
    simp [RendererDrawFPS, hin]
  · intro hlen
    exact runFPS_displayFPS_zero f ts initialFPSState rfl
      (by simpa [initialFPSState] using hlen)

/-- Witness for C8: a buffer of width 32 holding 777 everywhere, one pixel
outside the region and one inside, and a run of 3 frames. -/
theorem c8_drawfps_witness :
    (inFPSRegion 32 600 = false) ∧
    RendererDrawFPS 32 0 (fun _ => 777) 600 = 777 ∧
    (inFPSRegion 32 0 = true) ∧
    RendererDrawFPS 32 0 (fun _ => 777) 0 = fpsGlyph 0 0 ∧
    ([5, 6, 7] : List Nat).length < 60 ∧
    (runFPS 1000 [5, 6, 7] initialFPSState).displayFPS = 0 := by
  have h := c8_drawfps 32 0 600 (fun _ => 777) 1000 [5, 6, 7]
  have h0 := c8_drawfps 32 0 0 (fun _ => 777) 1000 [5, 6, 7]
  exact ⟨by decide, h.1 (by decide), by decide, h0.2.1 (by decide),
    by decide, h.2.2 (by decide)⟩

/-- Modelled from the spec: `RayHit`, the result of casting one ray (the
RayCaster sources are not under src/) — perpendicular distance to the first
solid cell, which cell face/axis was struck, and the struck cell's type. -/
structure RayHit where
  distance : Nat
  sideY : Bool
  cellType : Nat
deriving DecidableEq

/-- Modelled from the spec: the vertical wall-slice half-height — inverse in
the hit distance (closer means taller) and clipped to the screen height
(renderer.c is not under src/). -/
def wallSliceHalfHeight (H dist : Nat) : Nat :=
  if dist = 0 then H / 2 else min (H / 2) (H * 256 / dist)

/-- Modelled from the spec: the color of pixel row `y` of one traced column —
ceiling color above the wall slice, the wall color selected from the hit
within it, floor color below (renderer.c is not under src/). -/
def columnPixelColor (H ceilColor floorColor : Nat) (wallColor : RayHit → Nat)
    (hit : RayHit) (y : Nat) : Nat :=
  let hh := wallSliceHalfHeight H hit.distance
  if y < H / 2 - hh then ceilColor
  else if y < H / 2 + hh then wallColor hit
  else floorColor

/-- A single pixel store into a framebuffer modelled as a map from row-major
index to packed color. -/
def writePixel (b : Nat → Nat) (i v : Nat) : Nat → Nat :=
  fun j => if j = i then v else b j

/-- Modelled from the spec: fill rows `0 .. rows-1` of column `x` of a buffer
of width `W` with the column's pixel colors, row-major (index `y * W + x`). -/
def fillColumn (W x : Nat) (colPix : Nat → Nat) : Nat → (Nat → Nat) → Nat → Nat
  | 0, b => b
  | y + 1, b => writePixel (fillColumn W x colPix y b) (y * W + x) (colPix y)

/-- Modelled from the spec: trace columns `0 .. cols-1`, filling each column of
the buffer in turn. -/
def traceColumns (W H : Nat) (pix : Nat → Nat → Nat) : Nat → (Nat → Nat) → Nat → Nat
  | 0, b => b
  | x + 1, b => fillColumn W x (pix x) H (traceColumns W H pix x b)

/-- Modelled from the spec: `RendererTraceFrame` — for every screen column
invoke the RayCaster, convert the hit to a wall slice, and fill the column's
pixels of the supplied buffer: ceiling above, wall within, floor below
(renderer.c is not under src/). -/
def RendererTraceFrame (W H ceilColor floorColor : Nat) (wallColor : RayHit → Nat)
    (caster : Nat → RayHit) (b : Nat → Nat) : Nat → Nat :=
  traceColumns W H
    (fun x y => columnPixelColor H ceilColor floorColor wallColor (caster x) y) W b

lemma fillColumn_hit (W x : Nat) (p : Nat → Nat) (b : Nat → Nat) (hW : 0 < W)
    (rows y : Nat) (hy : y < rows) :
    fillColumn W x p rows b (y * W + x) = p y := by
  induction rows with
  | zero => omega
  | succ rows ih =>
    by_cases hcase : y = rows
    · subst hcase
      simp [fillColumn, writePixel]
    · have hne : y * W + x ≠ rows * W + x := by
        intro he
        exact hcase (Nat.eq_of_mul_eq_mul_right hW (Nat.add_right_cancel he))
      simp only [fillColumn, writePixel]
      rw [if_neg hne]
      exact ih (by omega)

lemma fillColumn_miss (W xcol xo : Nat) (p : Nat → Nat) (b : Nat → Nat)
    (hxo : xo < W) (hne : xo ≠ xcol) (hxcol : xcol < W) (rows y : Nat) :
    fillColumn W xcol p rows b (y * W + xo) = b (y * W + xo) := by
  induction rows with
  | zero => rfl
  | succ rows ih =>
    have hneidx : y * W + xo ≠ rows * W + xcol := by
      intro he
      have h1 : (y * W + xo) % W = xo := by
        rw [Nat.mul_comm y W, Nat.mul_add_mod]
        exact Nat.mod_eq_of_lt hxo
      have h2 : (rows * W + xcol) % W = xcol := by
        rw [Nat.mul_comm rows W, Nat.mul_add_mod]
        exact Nat.mod_eq_of_lt hxcol
      rw [he, h2] at h1
      exact hne h1.symm
    simp only [fillColumn, writePixel]
    rw [if_neg hneidx]
    exact ih

lemma traceColumns_pix (W H : Nat) (pix : Nat → Nat → Nat) (b : Nat → Nat)
    (X x y : Nat) (hxX : x < X) (hXW : X ≤ W) (hy : y < H) :
    traceColumns W H pix X b (y * W + x) = pix x y := by
  induction X generalizing b with
  | zero => omega
  | succ X ih =>
    simp only [traceColumns]
    by_cases hcase : x = X
    · subst hcase
      exact fillColumn_hit W x (pix x) _ (by omega) H y hy
    · rw [fillColumn_miss W X x (pix X) _ (by omega) hcase (by omega) H y]
      exact ih _ (by omega) (by omega)

/-- C2: every pixel of the buffer supplied to `RendererTraceFrame` is written
by the call — pixel `(x, y)` of the result is exactly the freshly computed
column color, whatever value the (reused, uncleared) buffer held there
before the call, so no stale or sentinel value survives. -/
theorem c2_full_coverage (W H cc fc : Nat) (wc : RayHit → Nat)
    (caster : Nat → RayHit) (b : Nat → Nat) (x y : Nat)
    (hx : x < W) (hy : y < H) :
    RendererTraceFrame W H cc fc wc caster b (y * W + x)
      = columnPixelColor H cc fc wc (caster x) y :=
  traceColumns_pix W H _ b W x y hx (Nat.le_refl W) hy

/-- Witness for C2: a 2-by-2 frame over a sentinel-filled buffer; the pixel at
column 1, row 1 comes out as the computed wall color 9, not the sentinel. -/
theorem c2_full_coverage_witness :
    RendererTraceFrame 2 2 7 8 (fun _ => 9) (fun _ => RayHit.mk 300 false 1)
      (fun _ => 12345) (1 * 2 + 1)
      = columnPixelColor 2 7 8 (fun _ => 9) (RayHit.mk 300 false 1) 1 ∧
    columnPixelColor 2 7 8 (fun _ => 9) (RayHit.mk 300 false 1) 1 = 9 :=
  ⟨c2_full_coverage 2 2 7 8 (fun _ => 9) (fun _ => RayHit.mk 300 false 1)
    (fun _ => 12345) 1 1 (by decide) (by decide), by decide⟩

/-- Modelled from the spec: the Map — a fixed-size 2D grid of cell kinds,
`solid cx cy = true` meaning a wall cell (game sources are not under src/). -/
structure GameMap where
  width : Nat
  height : Nat
  solid : Nat → Nat → Bool

/-- Modelled from the spec: whether the map cell with the given coordinates is
solid; coordinates outside the grid count as solid (not traversable). -/
def isSolidCell (m : GameMap) (cx cy : Int) : Bool :=
  if 0 ≤ cx ∧ cx < (m.width : Int) ∧ 0 ≤ cy ∧ cy < (m.height : Int) then
    m.solid cx.toNat cy.toNat
  else true

/-- Modelled from the spec: the Pose — player position in fixed-point map
units (256 units per cell) and facing angle. -/
structure Pose where
  x : Int
  y : Int
  angle : Int
deriving DecidableEq

/-- The map cell containing a fixed-point coordinate (floor division by the
256-units-per-cell scale). -/
def cellIndex (p : Int) : Int := Int.fdiv p 256

/-- Modelled from the spec: `GameMove` (game sources are not under src/) —
rotate the facing angle by `rotateDirection * rotSpeed * elapsed`, translate
along the facing vector (given by the backend's direction functions `dirX`,
`dirY`) by `moveDirection * moveSpeed * elapsed`, and commit the translation
only after a collision check against the Map: a translation whose target cell
is solid is rejected and the position kept, while the rotation is always
committed. -/
def GameMove (m : GameMap) (dirX dirY : Int → Int) (moveSpeed rotSpeed : Int)
    (s : Pose) (moveDirection rotateDirection elapsed : Int) : Pose :=
  if isSolidCell m
      (cellIndex (s.x + moveDirection * moveSpeed * elapsed * dirX s.angle))
      (cellIndex (s.y + moveDirection * moveSpeed * elapsed * dirY s.angle)) then
    { x := s.x, y := s.y,
      angle := s.angle + rotateDirection * rotSpeed * elapsed }
  else
    { x := s.x + moveDirection * moveSpeed * elapsed * dirX s.angle,
      y := s.y + moveDirection * moveSpeed * elapsed * dirY s.angle,
      angle := s.angle + rotateDirection * rotSpeed * elapsed }

/-- C3: if the pose is not inside a solid cell, then after any `GameMove` —
any directions, any elapsed time — it is still not inside a solid cell; a
translation whose target cell is solid leaves the position unchanged
(clamped), and the rotation is committed regardless (never blocked). -/
theorem c3_no_wall_entry (m : GameMap) (dirX dirY : Int → Int)
    (moveSpeed rotSpeed : Int) (s : Pose) (md rd dt : Int)
    (h : isSolidCell m (cellIndex s.x) (cellIndex s.y) = false) :
    isSolidCell m
      (cellIndex (GameMove m dirX dirY moveSpeed rotSpeed s md rd dt).x)
      (cellIndex (GameMove m dirX dirY moveSpeed rotSpeed s md rd dt).y) = false ∧
    (GameMove m dirX dirY moveSpeed rotSpeed s md rd dt).angle
      = s.angle + rd * rotSpeed * dt ∧
    (isSolidCell m (cellIndex (s.x + md * moveSpeed * dt * dirX s.angle))
        (cellIndex (s.y + md * moveSpeed * dt * dirY s.angle)) = true →
      (GameMove m dirX dirY moveSpeed rotSpeed s md rd dt).x = s.x ∧
      (GameMove m dirX dirY moveSpeed rotSpeed s md rd dt).y = s.y) := by
  unfold GameMove
  by_cases hsolid : isSolidCell m
      (cellIndex (s.x + md * moveSpeed * dt * dirX s.angle))
      (cellIndex (s.y + md * moveSpeed * dt * dirY s.angle)) = true
  · rw [if_pos hsolid]
    exact ⟨h, rfl, fun _ => ⟨rfl, rfl⟩⟩
  · rw [if_neg hsolid]
    refine ⟨?_, rfl, fun hcontra => absurd hcontra hsolid⟩
    simpa using hsolid

/-- Witness for C3: a 3-by-3 map whose only empty cell is the center, the
pose at the center cell, a large forward translation straight at the east
wall: the translation is rejected, the rotation goes through, and the pose
stays outside solid cells. -/
theorem c3_no_wall_entry_witness :
    isSolidCell (GameMap.mk 3 3 (fun cx cy => !(cx == 1 && cy == 1)))
      (cellIndex 384) (cellIndex 384) = false ∧
    (GameMove (GameMap.mk 3 3 (fun cx cy => !(cx == 1 && cy == 1)))
      (fun _ => 256) (fun _ => 0) 2 3 (Pose.mk 384 384 0) 1 1 100).x = 384 ∧
    (GameMove (GameMap.mk 3 3 (fun cx cy => !(cx == 1 && cy == 1)))
      (fun _ => 256) (fun _ => 0) 2 3 (Pose.mk 384 384 0) 1 1 100).y = 384 ∧
    (GameMove (GameMap.mk 3 3 (fun cx cy => !(cx == 1 && cy == 1)))
      (fun _ => 256) (fun _ => 0) 2 3 (Pose.mk 384 384 0) 1 1 100).angle
      = 0 + 1 * 3 * 100 ∧
    isSolidCell (GameMap.mk 3 3 (fun cx cy => !(cx == 1 && cy == 1)))
      (cellIndex (GameMove (GameMap.mk 3 3 (fun cx cy => !(cx == 1 && cy == 1)))
        (fun _ => 256) (fun _ => 0) 2 3 (Pose.mk 384 384 0) 1 1 100).x)
      (cellIndex (GameMove (GameMap.mk 3 3 (fun cx cy => !(cx == 1 && cy == 1)))
        (fun _ => 256) (fun _ => 0) 2 3 (Pose.mk 384 384 0) 1 1 100).y)
      = false := by
  have h := c3_no_wall_entry (GameMap.mk 3 3 (fun cx cy => !(cx == 1 && cy == 1)))
    (fun _ => 256) (fun _ => 0) 2 3 (Pose.mk 384 384 0) 1 1 100 (by decide)
  exact ⟨by decide, (h.2.2 (by decide)).1, (h.2.2 (by decide)).2, h.2.1, h.1⟩
